import Mathlib

/-!
Music visualizer (src/App.jsx): canvas renderers, particle field, animation loop

A shallow embedding of the rendering core of `App.jsx`.

* JavaScript numbers are idealised as exact rationals (`ℚ`); decimal literals
  such as `0.8` are the fractions they denote.  The one place where the source
  can produce `NaN` from well-formed input is the mean of an empty snapshot, so
  every statement that depends on a computed number assumes a snapshot of
  length `N ≥ 1`.
* `Math.random`, `Math.sin`, `Math.cos`, `Math.sqrt` and `Math.PI` are host
  functions, collected in `Host`; the `n`-th call of `Math.random()` returns
  `Host.random n`.
* The 2D context is a record of its drawing state (`fillStyle`, `strokeStyle`,
  `lineWidth`, current path) and the list of paint operations issued so far.
* A `Uint8Array` is a `List Nat` whose entries are at most 255.
-/

namespace MusicVisualizer

/-! ## Host functions and the canvas context -/

/-- Host functions that `App.jsx` calls but does not define. -/
structure Host where
  /-- Result of the `n`-th call (counting from 0) of `Math.random()`. -/
  random : Nat → ℚ
  /-- `Math.sin`. -/
  sin : ℚ → ℚ
  /-- `Math.cos`. -/
  cos : ℚ → ℚ
  /-- `Math.sqrt`. -/
  sqrt : ℚ → ℚ
  /-- `Math.PI`. -/
  pi : ℚ

/-- The `canvas` element as far as the renderers read it: `canvas.width`, `canvas.height`. -/
structure Canvas where
  width : ℚ
  height : ℚ
  deriving DecidableEq, Repr

/-- A CSS colour as written in the source's strings. -/
inductive Color where
  /-- The string `rgba(r, g, b, a)`. -/
  | rgba (r g b a : ℚ)
  /-- The string `hsla(h, s%, l%, a)`. -/
  | hsla (h s l a : ℚ)
  /-- A literal colour string such as `#a855f7`. -/
  | hex (s : String)
  deriving DecidableEq, Repr

/-- A value assigned to `fillStyle` or `strokeStyle`. -/
inductive Style where
  | color (c : Color)
  /-- The result of `createLinearGradient(x0, y0, x1, y1)` with its colour stops, in the order added. -/
  | gradient (x0 y0 x1 y1 : ℚ) (stops : List (ℚ × Color))
  deriving DecidableEq, Repr

/-- A segment of the current path. -/
inductive PathCmd where
  | moveTo (x y : ℚ)
  | lineTo (x y : ℚ)
  | arc (x y r a0 a1 : ℚ)
  deriving DecidableEq, Repr

/-- A paint operation: what reaches the bitmap. -/
inductive Painted where
  | fillRect (style : Style) (x y w h : ℚ)
  | stroke (style : Style) (lineWidth : ℚ) (path : List PathCmd)
  | fill (style : Style) (path : List PathCmd)
  deriving DecidableEq, Repr

/-- The 2D rendering context: drawing state and the paint operations issued so far (oldest first). -/
structure Ctx where
  fillStyle : Style
  strokeStyle : Style
  lineWidth : ℚ
  path : List PathCmd
  log : List Painted
  deriving DecidableEq, Repr

namespace Ctx

/-- A fresh context: the canvas defaults, nothing painted. -/
def fresh : Ctx :=
  ⟨Style.color (Color.hex "#000000"), Style.color (Color.hex "#000000"), 1, [], []⟩

/-- The assignment `ctx.fillStyle = s`. -/
def setFillStyle (ctx : Ctx) (s : Style) : Ctx := { ctx with fillStyle := s }

/-- The assignment `ctx.strokeStyle = s`. -/
def setStrokeStyle (ctx : Ctx) (s : Style) : Ctx := { ctx with strokeStyle := s }

/-- The assignment `ctx.lineWidth = w`. -/
def setLineWidth (ctx : Ctx) (w : ℚ) : Ctx := { ctx with lineWidth := w }

/-- The call `ctx.beginPath()`. -/
def beginPath (ctx : Ctx) : Ctx := { ctx with path := [] }

/-- The call `ctx.moveTo(x, y)`. -/
def moveTo (ctx : Ctx) (x y : ℚ) : Ctx := { ctx with path := ctx.path ++ [PathCmd.moveTo x y] }

/-- The call `ctx.lineTo(x, y)`. -/
def lineTo (ctx : Ctx) (x y : ℚ) : Ctx := { ctx with path := ctx.path ++ [PathCmd.lineTo x y] }

/-- The call `ctx.arc(x, y, r, a0, a1)`. -/
def arc (ctx : Ctx) (x y r a0 a1 : ℚ) : Ctx :=
  { ctx with path := ctx.path ++ [PathCmd.arc x y r a0 a1] }

/-- The call `ctx.fillRect(x, y, w, h)`: painted with the current `fillStyle`. -/
def fillRect (ctx : Ctx) (x y w h : ℚ) : Ctx :=
  { ctx with log := ctx.log ++ [Painted.fillRect ctx.fillStyle x y w h] }

/-- The call `ctx.stroke()`: the current path, with the current `strokeStyle` and `lineWidth`. -/
def stroke (ctx : Ctx) : Ctx :=
  { ctx with log := ctx.log ++ [Painted.stroke ctx.strokeStyle ctx.lineWidth ctx.path] }

/-- The call `ctx.fill()`: the current path, with the current `fillStyle`. -/
def fill (ctx : Ctx) : Ctx :=
  { ctx with log := ctx.log ++ [Painted.fill ctx.fillStyle ctx.path] }

end Ctx

/-! ## drawBars (lines 102-124) -/

/-- Height of the bar of a bin holding sample `s`: `(dataArray[i] / 255) * canvas.height * 0.8`. -/
def barHeight (canvas : Canvas) (s : Nat) : ℚ :=
  ((s : ℚ) / 255) * canvas.height * (8 / 10)

/-- Hue of bin `i` out of `len`: `(i / dataArray.length) * 360`. -/
def hueOf (i len : Nat) : ℚ := ((i : ℚ) / (len : ℚ)) * 360

/-- The gradient of one bar: `createLinearGradient(0, H - barHeight, 0, H)` and its two stops. -/
def barGradient (canvas : Canvas) (h hue : ℚ) : Style :=
  Style.gradient 0 (canvas.height - h) 0 canvas.height
    [(0, Color.hsla hue 100 60 (8 / 10)), (1, Color.hsla hue 100 40 (8 / 10))]

/-- The `for` loop of `drawBars`, entered at index `i` with the running offset `x`;
the list is `dataArray` from index `i` on, `len` is `dataArray.length`. -/
def drawBarsLoop (canvas : Canvas) (len : Nat) (barWidth : ℚ) :
    List Nat → Nat → ℚ → Ctx → Ctx
  | [], _, _, ctx => ctx
  | s :: rest, i, x, ctx =>
    let h := barHeight canvas s
    let hue := hueOf i len
    let ctx := ctx.setFillStyle (barGradient canvas h hue)
    let ctx := ctx.fillRect x (canvas.height - h) (barWidth - 2) h
    drawBarsLoop canvas len barWidth rest (i + 1) (x + barWidth) ctx

/-- The function `drawBars(ctx, dataArray, canvas)`. -/
def drawBars (ctx : Ctx) (dataArray : List Nat) (canvas : Canvas) : Ctx :=
  let barWidth := (canvas.width / (dataArray.length : ℚ)) * (5 / 2)
  drawBarsLoop canvas dataArray.length barWidth dataArray 0 0 ctx

/-! ## drawCircular (lines 126-156) -/

/-- The `for` loop of `drawCircular`, entered at index `i`. -/
def drawCircularLoop (host : Host) (len : Nat) (centerX centerY radius sliceAngle : ℚ) :
    List Nat → Nat → Ctx → Ctx
  | [], _, ctx => ctx
  | s :: rest, i, ctx =>
    let angle := sliceAngle * (i : ℚ) - host.pi / 2
    let barHeight := ((s : ℚ) / 255) * radius * (8 / 10)
    let x1 := centerX + host.cos angle * radius
    let y1 := centerY + host.sin angle * radius
    let x2 := centerX + host.cos angle * (radius + barHeight)
    let y2 := centerY + host.sin angle * (radius + barHeight)
    let hue := hueOf i len
    let ctx := ctx.setStrokeStyle (Style.color (Color.hsla hue 100 60 (8 / 10)))
    let ctx := ctx.setLineWidth 3
    let ctx := ctx.beginPath
    let ctx := ctx.moveTo x1 y1
    let ctx := ctx.lineTo x2 y2
    let ctx := ctx.stroke
    drawCircularLoop host len centerX centerY radius sliceAngle rest (i + 1) ctx

/-- The function `drawCircular(ctx, dataArray, canvas)`. -/
def drawCircular (host : Host) (ctx : Ctx) (dataArray : List Nat) (canvas : Canvas) : Ctx :=
  let centerX := canvas.width / 2
  let centerY := canvas.height / 2
  let radius := min centerX centerY * (6 / 10)
  let ctx := ctx.setStrokeStyle (Style.color (Color.rgba 147 51 234 (3 / 10)))
  let ctx := ctx.setLineWidth 2
  let ctx := ctx.beginPath
  let ctx := ctx.arc centerX centerY radius 0 (host.pi * 2)
  let ctx := ctx.stroke
  let sliceAngle := (host.pi * 2) / (dataArray.length : ℚ)
  drawCircularLoop host dataArray.length centerX centerY radius sliceAngle dataArray 0 ctx

/-! ## drawWave (lines 158-200) -/

/-- The vertex of the first polyline for sample `s`: `(v * canvas.height) / 2 + canvas.height / 2`. -/
def waveY (canvas : Canvas) (s : Nat) : ℚ :=
  (((s : ℚ) / 255) * canvas.height) / 2 + canvas.height / 2

/-- The vertex of the second polyline for sample `s` at offset `x`:
`canvas.height / 2 + Math.sin(x * 0.02 + v * 10) * (v * 100)`. -/
def oscY (host : Host) (canvas : Canvas) (x : ℚ) (s : Nat) : ℚ :=
  canvas.height / 2 + host.sin (x * (2 / 100) + ((s : ℚ) / 255) * 10) * (((s : ℚ) / 255) * 100)

/-- The first `for` loop of `drawWave`, entered at index `i` with the running offset `x`. -/
def drawWaveLoop (canvas : Canvas) (sliceWidth : ℚ) : List Nat → Nat → ℚ → Ctx → Ctx
  | [], _, _, ctx => ctx
  | s :: rest, i, x, ctx =>
    let y := waveY canvas s
    let ctx := if i = 0 then ctx.moveTo x y else ctx.lineTo x y
    drawWaveLoop canvas sliceWidth rest (i + 1) (x + sliceWidth) ctx

/-- The second `for` loop of `drawWave`, entered at index `i` with the running offset `x`. -/
def drawOscLoop (host : Host) (canvas : Canvas) (sliceWidth : ℚ) :
    List Nat → Nat → ℚ → Ctx → Ctx
  | [], _, _, ctx => ctx
  | s :: rest, i, x, ctx =>
    let y := oscY host canvas x s
    let ctx := if i = 0 then ctx.moveTo x y else ctx.lineTo x y
    drawOscLoop host canvas sliceWidth rest (i + 1) (x + sliceWidth) ctx

/-- The function `drawWave(ctx, dataArray, canvas)`. -/
def drawWave (host : Host) (ctx : Ctx) (dataArray : List Nat) (canvas : Canvas) : Ctx :=
  let sliceWidth := canvas.width / (dataArray.length : ℚ)
  let ctx := ctx.setLineWidth 3
  let ctx := ctx.setStrokeStyle (Style.color (Color.hex "#a855f7"))
  let ctx := ctx.beginPath
  let ctx := drawWaveLoop canvas sliceWidth dataArray 0 0 ctx
  let ctx := ctx.stroke
  let ctx := ctx.setStrokeStyle (Style.color (Color.hex "#ec4899"))
  let ctx := ctx.setLineWidth 2
  let ctx := ctx.beginPath
  let ctx := drawOscLoop host canvas sliceWidth dataArray 0 0 ctx
  ctx.stroke

/-! ## drawParticles (lines 202-260) -/

/-- An entry of `particlesRef.current`. -/
structure Particle where
  x : ℚ
  y : ℚ
  vx : ℚ
  vy : ℚ
  size : ℚ
  deriving DecidableEq, Repr

/-- What the renderers act on: the 2D context, `particlesRef.current`, and the number of
calls of `Math.random()` made so far. -/
structure Scene where
  ctx : Ctx
  particles : List Particle
  randomCalls : Nat

/-- The scene before anything ran: `useRef([])`, a fresh context, no random number drawn. -/
def Scene.fresh : Scene := ⟨Ctx.fresh, [], 0⟩

/-- The object literal pushed by the initialisation loop; `r` calls of `Math.random()` precede it. -/
def newParticle (host : Host) (canvas : Canvas) (r : Nat) : Particle :=
  { x := host.random r * canvas.width
    y := host.random (r + 1) * canvas.height
    vx := (host.random (r + 2) - 1 / 2) * 2
    vy := (host.random (r + 3) - 1 / 2) * 2
    size := host.random (r + 4) * 3 + 1 }

/-- The initialisation loop `for (let i = 0; i < 100; i++) push(...)`, with `n` iterations left. -/
def initLoop (host : Host) (canvas : Canvas) : Nat → List Particle → Nat → List Particle × Nat
  | 0, ps, r => (ps, r)
  | n + 1, ps, r => initLoop host canvas n (ps ++ [newParticle host canvas r]) (r + 5)

/-- The index `Math.floor((i / particlesRef.current.length) * dataArray.length)`. -/
def freqIndex (i count len : Nat) : ℤ :=
  ⌊((i : ℚ) / (count : ℚ)) * (len : ℚ)⌋

/-- The read `dataArray[k]`: `none` is JavaScript's `undefined` (index outside the array). -/
def sampleAt (dataArray : List Nat) (k : ℤ) : Option Nat :=
  if k < 0 then none else dataArray[k.toNat]?

/-- The value `dataArray[freqIndex] / 255`; `none` is `NaN` (from `undefined / 255`). -/
def amplitudeAt (dataArray : List Nat) (i count : Nat) : Option ℚ :=
  (sampleAt dataArray (freqIndex i count dataArray.length)).map (fun s => (s : ℚ) / 255)

/-- The value `intensity`: the mean of the snapshot divided by 255. -/
def intensityOf (dataArray : List Nat) : ℚ :=
  (((dataArray.foldl (fun a b => a + b) 0 : Nat) : ℚ) / (dataArray.length : ℚ)) / 255

/-- Lines 226-233: advance one particle, flip the velocity on an out-of-bound step, clamp. -/
def moveParticle (canvas : Canvas) (intensity : ℚ) (p : Particle) : Particle :=
  let x := p.x + p.vx * (1 + intensity)
  let y := p.y + p.vy * (1 + intensity)
  let vx := if x < 0 ∨ x > canvas.width then p.vx * (-1) else p.vx
  let vy := if y < 0 ∨ y > canvas.height then p.vy * (-1) else p.vy
  { x := max 0 (min canvas.width x)
    y := max 0 (min canvas.height y)
    vx := vx
    vy := vy
    size := p.size }

/-- Lines 235-241: paint particle `i` (already moved).  With a `NaN` amplitude the colour string
and the radius are not valid, the canvas ignores both calls, and `fill()` fills an empty path. -/
def paintParticle (host : Host) (count i : Nat) (amplitude : Option ℚ) (p : Particle)
    (ctx : Ctx) : Ctx :=
  let hue := hueOf i count
  match amplitude with
  | some a =>
    let size := p.size * (1 + a * 3)
    let ctx := ctx.setFillStyle (Style.color (Color.hsla hue 100 60 (6 / 10 + a * (4 / 10))))
    let ctx := ctx.beginPath
    let ctx := ctx.arc p.x p.y size 0 (host.pi * 2)
    ctx.fill
  | none => ctx.beginPath.fill

/-- The `forEach` over the pool, entered at index `i`; `count` is `particlesRef.current.length`.
Returns the updated particles and the context. -/
def particlesLoop (host : Host) (canvas : Canvas) (dataArray : List Nat) (intensity : ℚ)
    (count : Nat) : List Particle → Nat → Ctx → List Particle × Ctx
  | [], _, ctx => ([], ctx)
  | p :: rest, i, ctx =>
    let amplitude := amplitudeAt dataArray i count
    let q := moveParticle canvas intensity p
    let ctx := paintParticle host count i amplitude q ctx
    let r := particlesLoop host canvas dataArray intensity count rest (i + 1) ctx
    (q :: r.1, r.2)

/-- The inner loop of the link pass: particle `a` against every later particle. -/
def linkInner (host : Host) (a : Particle) : List Particle → Ctx → Ctx
  | [], ctx => ctx
  | b :: rest, ctx =>
    let dx := a.x - b.x
    let dy := a.y - b.y
    let distance := host.sqrt (dx * dx + dy * dy)
    let ctx :=
      if distance < 100 then
        let ctx := ctx.setStrokeStyle
          (Style.color (Color.rgba 168 85 247 ((2 / 10) * (1 - distance / 100))))
        let ctx := ctx.setLineWidth 1
        let ctx := ctx.beginPath
        let ctx := ctx.moveTo a.x a.y
        let ctx := ctx.lineTo b.x b.y
        ctx.stroke
      else ctx
    linkInner host a rest ctx

/-- The outer loop of the link pass (lines 244-259). -/
def linkLoop (host : Host) : List Particle → Ctx → Ctx
  | [], ctx => ctx
  | a :: rest, ctx => linkLoop host rest (linkInner host a rest ctx)

/-- Lines 205-215: the pool is created when `particlesRef.current.length === 0`.  Returns the
pool and the number of calls of `Math.random()` made so far. -/
def ensurePool (host : Host) (canvas : Canvas) (sc : Scene) : List Particle × Nat :=
  if sc.particles.length = 0 then initLoop host canvas 100 sc.particles sc.randomCalls
  else (sc.particles, sc.randomCalls)

/-- The function `drawParticles(ctx, dataArray, canvas)`, acting on the scene. -/
def drawParticles (host : Host) (sc : Scene) (dataArray : List Nat) (canvas : Canvas) : Scene :=
  let created := ensurePool host canvas sc
  let intensity := intensityOf dataArray
  let moved := particlesLoop host canvas dataArray intensity created.1.length created.1 0 sc.ctx
  { ctx := linkLoop host moved.1 moved.2
    particles := moved.1
    randomCalls := created.2 }

/-! ## The component: state, togglePlay, visualize, draw (lines 4-100) -/

/-- The values of `visualMode`: the initial `"bars"` and the ids of `modes`. -/
inductive VisualMode where
  | bars
  | circular
  | wave
  | particles
  deriving DecidableEq, Repr

/-- What the function `draw` created by one call of `visualize` has captured: the `visualMode`
of the render whose `visualize` ran, and the canvas. -/
structure Closure where
  visualMode : VisualMode
  canvas : Canvas
  deriving DecidableEq, Repr

/-- An entry of the host's list of animation frame callbacks. -/
structure FrameRequest where
  id : Nat
  callback : Closure
  deriving DecidableEq, Repr

/-- The component's state and refs, the scene, and the host's pending animation frame callbacks.
`true` in `currentFile`, `audioContext`, `audioRef`, `sourceRef` means non-null.  The audio
element and the audio graph are collaborators: their calls (`play`, `pause`, `resume`,
`createMediaElementSource`, `connect`, `close`) appear only where a null receiver or argument
makes them raise. -/
structure App where
  isPlaying : Bool
  currentFile : Bool
  visualMode : VisualMode
  audioContext : Bool
  /-- The analyser node, given by its `frequencyBinCount`. -/
  analyser : Option Nat
  audioRef : Bool
  canvasRef : Option Canvas
  animationRef : Option Nat
  sourceRef : Bool
  scene : Scene
  /-- Callbacks registered with `requestAnimationFrame` and not yet run or cancelled. -/
  pending : List FrameRequest
  /-- The handle the next `requestAnimationFrame` returns. -/
  nextHandle : Nat

/-- The state after mounting (the effect of lines 16-22 has run): the canvas element of the
markup, a context and an analyser; handles start at 1. -/
def App.init (canvas : Canvas) (bins : Nat) : App :=
  { isPlaying := false
    currentFile := false
    visualMode := VisualMode.bars
    audioContext := true
    analyser := some bins
    audioRef := true
    canvasRef := some canvas
    animationRef := none
    sourceRef := false
    scene := Scene.fresh
    pending := []
    nextHandle := 1 }

/-- The host call `requestAnimationFrame(draw)` for the `draw` of closure `c`: the callback is
appended to the pending list; returns the handle and the new state. -/
def requestAnimationFrame (c : Closure) (s : App) : Nat × App :=
  (s.nextHandle,
    { s with pending := s.pending ++ [FrameRequest.mk s.nextHandle c],
             nextHandle := s.nextHandle + 1 })

/-- The host call `cancelAnimationFrame(id)`. -/
def cancelAnimationFrame (id : Nat) (s : App) : App :=
  { s with pending := s.pending.filter (fun r => r.id != id) }

/-- The statement `if (animationRef.current) cancelAnimationFrame(animationRef.current)`:
`null` and `0` are falsy. -/
def cancelCurrent (s : App) : App :=
  match s.animationRef with
  | none => s
  | some id => if id = 0 then s else cancelAnimationFrame id s

/-- Lines 83-96: the body of `draw` after the frame request, on snapshot `dataArray`
(what `getByteFrequencyData` wrote). -/
def renderFrame (host : Host) (mode : VisualMode) (canvas : Canvas) (dataArray : List Nat)
    (sc : Scene) : Scene :=
  let ctx := sc.ctx.setFillStyle (Style.color (Color.rgba 10 10 20 (2 / 10)))
  let ctx := ctx.fillRect 0 0 canvas.width canvas.height
  let sc := { sc with ctx := ctx }
  match mode with
  | VisualMode.bars => { sc with ctx := drawBars sc.ctx dataArray canvas }
  | VisualMode.circular => { sc with ctx := drawCircular host sc.ctx dataArray canvas }
  | VisualMode.wave => { sc with ctx := drawWave host sc.ctx dataArray canvas }
  | VisualMode.particles => drawParticles host sc dataArray canvas

/-- The function `draw` (lines 81-97) of the closure `c`: request the next frame for the same
closure, store the handle in `animationRef.current`, render. -/
def draw (host : Host) (c : Closure) (dataArray : List Nat) (s : App) : App :=
  let r := requestAnimationFrame c s
  let s := { r.2 with animationRef := some r.1 }
  { s with scene := renderFrame host c.visualMode c.canvas dataArray s.scene }

/-- The function `visualize` (lines 73-100) of the current render; `dataArray` is the snapshot
its first, synchronous call of `draw` reads. -/
def visualize (host : Host) (dataArray : List Nat) (s : App) : App :=
  match s.canvasRef, s.analyser with
  | some canvas, some _ => draw host ⟨s.visualMode, canvas⟩ dataArray s
  | _, _ => s

/-- Result of an event handler: the state it leaves, and whether it raised a `TypeError`. -/
structure Outcome where
  state : App
  raised : Bool

/-- The pause branch of `togglePlay` (lines 49-53). -/
def pauseBranch (s : App) : App :=
  cancelCurrent { s with isPlaying := false }

/-- Lines 67-69: `audioRef.current.play(); setIsPlaying(true); visualize();`.  Calling `play`
on a null `audioRef.current` raises. -/
def playAndVisualize (host : Host) (dataArray : List Nat) (s : App) : Outcome :=
  if s.audioRef then ⟨visualize host dataArray { s with isPlaying := true }, false⟩
  else ⟨s, true⟩

/-- The play branch of `togglePlay` (lines 55-69).  Reading `audioContext.state` of a null
context raises, and so does `connect(analyser)` with a null analyser. -/
def playBranch (host : Host) (dataArray : List Nat) (s : App) : Outcome :=
  if s.audioContext then
    if !s.sourceRef && s.audioRef then
      match s.analyser with
      | none => ⟨{ s with sourceRef := true }, true⟩
      | some _ => playAndVisualize host dataArray { s with sourceRef := true }
    else playAndVisualize host dataArray s
  else ⟨s, true⟩

/-- The handler `togglePlay` (lines 45-71) of the current render. -/
def togglePlay (host : Host) (dataArray : List Nat) (s : App) : Outcome :=
  if !s.audioRef || !s.currentFile then ⟨s, false⟩
  else if s.isPlaying then ⟨pauseBranch s, false⟩
  else playBranch host dataArray s

/-- The handler `handleFileUpload` (lines 33-43); `isAudio` says whether a file was chosen
whose type starts with `audio/`. -/
def handleFileUpload (isAudio : Bool) (s : App) : App :=
  if isAudio then { s with currentFile := true } else s

/-- The mode buttons' handler `setVisualMode(mode.id)`. -/
def setVisualMode (m : VisualMode) (s : App) : App := { s with visualMode := m }

/-- The unmount cleanup (lines 23-30). -/
def cleanup (s : App) : App := cancelCurrent s

/-- An animation frame: the host runs the callbacks pending when the frame starts, in order;
a callback registered meanwhile waits for the next frame. -/
def tick (host : Host) (dataArray : List Nat) (s : App) : App :=
  s.pending.foldl (fun t r => draw host r.callback dataArray t) { s with pending := [] }

/-- What can happen to the mounted component. -/
inductive Event where
  | upload (isAudio : Bool)
  | togglePlay (dataArray : List Nat)
  | setVisualMode (m : VisualMode)
  | tick (dataArray : List Nat)

/-- One event. -/
def step (host : Host) (s : App) : Event → App
  | Event.upload isAudio => handleFileUpload isAudio s
  | Event.togglePlay dataArray => (togglePlay host dataArray s).state
  | Event.setVisualMode m => setVisualMode m s
  | Event.tick dataArray => tick host dataArray s

/-- A sequence of events, oldest first. -/
def run (host : Host) (s : App) (events : List Event) : App :=
  events.foldl (step host) s

/-! ## Predicates used in the statements -/

/-- What every frame of `drawParticles` establishes and every later frame keeps: 100 particles
inside the surface, with the sizes `L` drawn at creation, after `c` calls of `Math.random()`. -/
def PoolOk (canvas : Canvas) (c : Nat) (L : List ℚ) (sc : Scene) : Prop :=
  sc.particles.length = 100 ∧ sc.randomCalls = c ∧ sc.particles.map Particle.size = L ∧
  ∀ p ∈ sc.particles, 0 ≤ p.x ∧ p.x ≤ canvas.width ∧ 0 ≤ p.y ∧ p.y ≤ canvas.height

/-- Whether the event is a click on the play button. -/
def Event.isToggle : Event → Bool
  | Event.togglePlay _ => true
  | _ => false

/-- A loop is running: playback is on, exactly one frame callback is pending, and its handle is
the non-zero value of `animationRef.current`. -/
def Running (s : App) : Prop :=
  s.isPlaying = true ∧ s.audioRef = true ∧ s.currentFile = true ∧ 0 < s.nextHandle ∧
  ∃ r : FrameRequest, s.pending = [r] ∧ s.animationRef = some r.id ∧ r.id ≠ 0

/-- A host for the concrete evaluations: `Math.random()` always returns `3/4`, and the other
functions are constant. -/
def Host.sample : Host := ⟨fun _ => 3 / 4, fun _ => 0, fun _ => 1, fun _ => 0, 3⟩

/-! ## Lemmas on the renderers' loops -/

theorem drawBarsLoop_log (canvas : Canvas) (len : Nat) (bw : ℚ) :
    ∀ (l : List Nat) (i : Nat) (x : ℚ) (ctx : Ctx),
      ∃ ops : List Painted,
        (drawBarsLoop canvas len bw l i x ctx).log = ctx.log ++ ops ∧ ops.length = l.length ∧
        ∀ (k : Nat) (v : Nat), l[k]? = some v →
          ops[k]? = some (Painted.fillRect (barGradient canvas (barHeight canvas v) (hueOf (i + k) len))
            (x + (k : ℚ) * bw) (canvas.height - barHeight canvas v) (bw - 2) (barHeight canvas v)) := by
  intro l
  induction l with
  | nil =>
    intro i x ctx
    exact ⟨[], by simp [drawBarsLoop], rfl, by simp⟩
  | cons s rest ih =>
    intro i x ctx
    obtain ⟨ops, hlog, hlen, hget⟩ := ih (i + 1) (x + bw)
      ((ctx.setFillStyle (barGradient canvas (barHeight canvas s) (hueOf i len))).fillRect x
        (canvas.height - barHeight canvas s) (bw - 2) (barHeight canvas s))
    refine ⟨Painted.fillRect (barGradient canvas (barHeight canvas s) (hueOf i len)) x
        (canvas.height - barHeight canvas s) (bw - 2) (barHeight canvas s) :: ops, ?_, ?_, ?_⟩
    · simp only [drawBarsLoop]
      rw [hlog]
      simp [Ctx.fillRect, Ctx.setFillStyle]
    · simp [hlen]
    · intro k v hk
      cases k with
      | zero =>
        simp only [List.getElem?_cons_zero, Option.some.injEq] at hk
        subst hk
        simp
      | succ k =>
        simp only [List.getElem?_cons_succ] at hk
        have h := hget k v hk
        simp only [List.getElem?_cons_succ]
        rw [h]
        have e1 : i + 1 + k = i + (k + 1) := by omega
        have e2 : x + bw + (k : ℚ) * bw = x + ((k + 1 : Nat) : ℚ) * bw := by push_cast; ring
        rw [e1, e2]

theorem drawBars_log_length (ctx : Ctx) (d : List Nat) (canvas : Canvas) :
    (drawBars ctx d canvas).log.length = ctx.log.length + d.length := by
  obtain ⟨ops, hlog, hlen, _⟩ :=
    drawBarsLoop_log canvas d.length ((canvas.width / (d.length : ℚ)) * (5 / 2)) d 0 0 ctx
  show (drawBarsLoop canvas d.length ((canvas.width / (d.length : ℚ)) * (5 / 2)) d 0 0 ctx).log.length
    = ctx.log.length + d.length
  rw [hlog, List.length_append, hlen]

theorem drawCircularLoop_log_length (host : Host) (len : Nat) (cx cy radius slice : ℚ) :
    ∀ (l : List Nat) (i : Nat) (ctx : Ctx),
      (drawCircularLoop host len cx cy radius slice l i ctx).log.length =
        ctx.log.length + l.length := by
  intro l
  induction l with
  | nil => intro i ctx; rfl
  | cons s rest ih =>
    intro i ctx
    simp only [drawCircularLoop]
    rw [ih]
    simp [Ctx.stroke, Ctx.lineTo, Ctx.moveTo, Ctx.beginPath, Ctx.setLineWidth, Ctx.setStrokeStyle]
    omega

theorem drawCircular_log_length (host : Host) (ctx : Ctx) (d : List Nat) (canvas : Canvas) :
    (drawCircular host ctx d canvas).log.length = ctx.log.length + 1 + d.length := by
  simp only [drawCircular]
  rw [drawCircularLoop_log_length]
  simp [Ctx.stroke, Ctx.arc, Ctx.beginPath, Ctx.setLineWidth, Ctx.setStrokeStyle]

theorem bars_frame_log_length (ctx : Ctx) (st : Style) (x y w h : ℚ) (d : List Nat)
    (canvas : Canvas) :
    (drawBars ((ctx.setFillStyle st).fillRect x y w h) d canvas).log.length =
      ctx.log.length + 1 + d.length := by
  rw [drawBars_log_length]
  simp [Ctx.fillRect, Ctx.setFillStyle]

theorem circular_frame_log_length (host : Host) (ctx : Ctx) (st : Style) (x y w h : ℚ)
    (d : List Nat) (canvas : Canvas) :
    (drawCircular host ((ctx.setFillStyle st).fillRect x y w h) d canvas).log.length =
      ctx.log.length + 2 + d.length := by
  rw [drawCircular_log_length]
  simp [Ctx.fillRect, Ctx.setFillStyle]

theorem barHeight_nonneg (canvas : Canvas) (v : Nat) (hH : 0 ≤ canvas.height) :
    0 ≤ barHeight canvas v := by
  unfold barHeight
  positivity

theorem barHeight_le (canvas : Canvas) (v : Nat) (hH : 0 ≤ canvas.height) (hv : v ≤ 255) :
    barHeight canvas v ≤ (8 / 10) * canvas.height := by
  unfold barHeight
  have h1 : ((v : ℚ) / 255) ≤ 1 := by
    rw [div_le_one (by norm_num)]
    exact_mod_cast hv
  have h2 : ((v : ℚ) / 255) * canvas.height ≤ 1 * canvas.height :=
    mul_le_mul_of_nonneg_right h1 hH
  nlinarith

theorem hueOf_lt (i j N : Nat) (hN : 1 ≤ N) (hij : i < j) : hueOf i N < hueOf j N := by
  unfold hueOf
  have hN0 : (0 : ℚ) < (N : ℚ) := by exact_mod_cast hN
  have h : (i : ℚ) < (j : ℚ) := by exact_mod_cast hij
  have := div_lt_div_of_pos_right h hN0
  linarith

theorem hueOf_lt_360 (i N : Nat) (hi : i < N) : hueOf i N < 360 := by
  unfold hueOf
  have hN0 : (0 : ℚ) < (N : ℚ) := by exact_mod_cast (Nat.lt_of_le_of_lt (Nat.zero_le i) hi)
  have h : (i : ℚ) < (N : ℚ) := by exact_mod_cast hi
  have := (div_lt_one hN0).2 h
  linarith

theorem hueOf_nonneg (i N : Nat) : 0 ≤ hueOf i N := by
  unfold hueOf
  positivity

theorem drawWaveLoop_path (canvas : Canvas) (sw : ℚ) :
    ∀ (l : List Nat) (i : Nat) (x : ℚ) (ctx : Ctx),
      ∃ vs : List PathCmd,
        drawWaveLoop canvas sw l i x ctx = { ctx with path := ctx.path ++ vs } ∧
        vs.length = l.length ∧
        ∀ (k : Nat) (v : Nat), l[k]? = some v →
          vs[k]? = some (if i + k = 0 then PathCmd.moveTo (x + (k : ℚ) * sw) (waveY canvas v)
            else PathCmd.lineTo (x + (k : ℚ) * sw) (waveY canvas v)) := by
  intro l
  induction l with
  | nil =>
    intro i x ctx
    exact ⟨[], by simp [drawWaveLoop], rfl, by simp⟩
  | cons s rest ih =>
    intro i x ctx
    obtain ⟨vs, heq, hlen, hget⟩ := ih (i + 1) (x + sw)
      (if i = 0 then ctx.moveTo x (waveY canvas s) else ctx.lineTo x (waveY canvas s))
    refine ⟨(if i = 0 then PathCmd.moveTo x (waveY canvas s)
        else PathCmd.lineTo x (waveY canvas s)) :: vs, ?_, ?_, ?_⟩
    · simp only [drawWaveLoop]
      rw [heq]
      by_cases h0 : i = 0 <;> simp [h0, Ctx.moveTo, Ctx.lineTo]
    · simp [hlen]
    · intro k v hk
      cases k with
      | zero =>
        simp only [List.getElem?_cons_zero, Option.some.injEq] at hk
        subst hk
        simp
      | succ k =>
        simp only [List.getElem?_cons_succ] at hk
        have h := hget k v hk
        simp only [List.getElem?_cons_succ]
        rw [h]
        have e1 : i + 1 + k = i + (k + 1) := by omega
        have e2 : x + sw + (k : ℚ) * sw = x + ((k + 1 : Nat) : ℚ) * sw := by push_cast; ring
        rw [e1, e2]

theorem drawOscLoop_path (host : Host) (canvas : Canvas) (sw : ℚ) :
    ∀ (l : List Nat) (i : Nat) (x : ℚ) (ctx : Ctx),
      ∃ vs : List PathCmd,
        drawOscLoop host canvas sw l i x ctx = { ctx with path := ctx.path ++ vs } ∧
        vs.length = l.length ∧
        ∀ (k : Nat) (v : Nat), l[k]? = some v →
          vs[k]? = some (if i + k = 0
            then PathCmd.moveTo (x + (k : ℚ) * sw) (oscY host canvas (x + (k : ℚ) * sw) v)
            else PathCmd.lineTo (x + (k : ℚ) * sw) (oscY host canvas (x + (k : ℚ) * sw) v)) := by
  intro l
  induction l with
  | nil =>
    intro i x ctx
    exact ⟨[], by simp [drawOscLoop], rfl, by simp⟩
  | cons s rest ih =>
    intro i x ctx
    obtain ⟨vs, heq, hlen, hget⟩ := ih (i + 1) (x + sw)
      (if i = 0 then ctx.moveTo x (oscY host canvas x s) else ctx.lineTo x (oscY host canvas x s))
    refine ⟨(if i = 0 then PathCmd.moveTo x (oscY host canvas x s)
        else PathCmd.lineTo x (oscY host canvas x s)) :: vs, ?_, ?_, ?_⟩
    · simp only [drawOscLoop]
      rw [heq]
      by_cases h0 : i = 0 <;> simp [h0, Ctx.moveTo, Ctx.lineTo]
    · simp [hlen]
    · intro k v hk
      cases k with
      | zero =>
        simp only [List.getElem?_cons_zero, Option.some.injEq] at hk
        subst hk
        simp
      | succ k =>
        simp only [List.getElem?_cons_succ] at hk
        have h := hget k v hk
        simp only [List.getElem?_cons_succ]
        rw [h]
        have e1 : i + 1 + k = i + (k + 1) := by omega
        have e2 : x + sw + (k : ℚ) * sw = x + ((k + 1 : Nat) : ℚ) * sw := by push_cast; ring
        rw [e1, e2]

/-! ## Lemmas on the particle field -/

theorem initLoop_eq (host : Host) (canvas : Canvas) :
    ∀ (n : Nat) (ps : List Particle) (r : Nat),
      initLoop host canvas n ps r =
        (ps ++ (List.range n).map (fun i => newParticle host canvas (r + 5 * i)), r + 5 * n) := by
  intro n
  induction n with
  | zero => intro ps r; simp [initLoop]
  | succ n ih =>
    intro ps r
    simp only [initLoop]
    rw [ih, List.range_succ_eq_map]
    simp only [List.map_cons, List.map_map, List.append_assoc, List.singleton_append,
      Nat.mul_zero, Nat.add_zero]
    refine Prod.ext ?_ (by simp only; omega)
    simp only
    congr 2
    apply List.map_congr_left
    intro i _
    simp only [Function.comp]
    congr 1
    omega

theorem particlesLoop_fst (host : Host) (canvas : Canvas) (dataArray : List Nat) (intensity : ℚ)
    (count : Nat) :
    ∀ (ps : List Particle) (i : Nat) (ctx : Ctx),
      (particlesLoop host canvas dataArray intensity count ps i ctx).1 =
        ps.map (moveParticle canvas intensity) := by
  intro ps
  induction ps with
  | nil => intro i ctx; rfl
  | cons p rest ih =>
    intro i ctx
    simp only [particlesLoop, List.map_cons]
    rw [ih]

theorem drawParticles_particles (host : Host) (sc : Scene) (dataArray : List Nat)
    (canvas : Canvas) :
    (drawParticles host sc dataArray canvas).particles =
      (ensurePool host canvas sc).1.map (moveParticle canvas (intensityOf dataArray)) := by
  simp only [drawParticles]
  rw [particlesLoop_fst]

theorem drawParticles_randomCalls (host : Host) (sc : Scene) (dataArray : List Nat)
    (canvas : Canvas) :
    (drawParticles host sc dataArray canvas).randomCalls = (ensurePool host canvas sc).2 := rfl

theorem ensurePool_of_nil (host : Host) (canvas : Canvas) (sc : Scene) (h : sc.particles = []) :
    ensurePool host canvas sc =
      ((List.range 100).map (fun i => newParticle host canvas (sc.randomCalls + 5 * i)),
        sc.randomCalls + 500) := by
  unfold ensurePool
  rw [if_pos (by simp [h]), initLoop_eq, h]
  simp

theorem ensurePool_of_ne_nil (host : Host) (canvas : Canvas) (sc : Scene)
    (h : sc.particles ≠ []) : ensurePool host canvas sc = (sc.particles, sc.randomCalls) := by
  unfold ensurePool
  rw [if_neg]
  intro h0
  exact h (List.length_eq_zero.1 h0)

theorem moveParticle_bounds (canvas : Canvas) (intensity : ℚ) (p : Particle)
    (hW : 0 ≤ canvas.width) (hH : 0 ≤ canvas.height) :
    0 ≤ (moveParticle canvas intensity p).x ∧ (moveParticle canvas intensity p).x ≤ canvas.width ∧
    0 ≤ (moveParticle canvas intensity p).y ∧
      (moveParticle canvas intensity p).y ≤ canvas.height := by
  simp only [moveParticle]
  refine ⟨le_max_left _ _, max_le hW (min_le_left _ _), le_max_left _ _,
    max_le hH (min_le_left _ _)⟩

theorem moveParticle_size (canvas : Canvas) (intensity : ℚ) (p : Particle) :
    (moveParticle canvas intensity p).size = p.size := rfl

theorem poolOk_first (host : Host) (canvas : Canvas) (sc : Scene) (d : List Nat)
    (hW : 0 ≤ canvas.width) (hH : 0 ≤ canvas.height) (hsc : sc.particles = []) :
    PoolOk canvas (sc.randomCalls + 500)
      ((List.range 100).map (fun i => host.random (sc.randomCalls + 5 * i + 4) * 3 + 1))
      (drawParticles host sc d canvas) := by
  refine ⟨?_, ?_, ?_, ?_⟩
  · rw [drawParticles_particles, ensurePool_of_nil host canvas sc hsc]
    simp
  · rw [drawParticles_randomCalls, ensurePool_of_nil host canvas sc hsc]
  · rw [drawParticles_particles, ensurePool_of_nil host canvas sc hsc]
    simp only [List.map_map]
    apply List.map_congr_left
    intro i _
    simp [Function.comp, moveParticle_size, newParticle, Nat.add_assoc]
  · intro p hp
    rw [drawParticles_particles] at hp
    obtain ⟨q, _, rfl⟩ := List.mem_map.1 hp
    exact moveParticle_bounds canvas _ q hW hH

theorem poolOk_next (host : Host) (canvas : Canvas) (c : Nat) (L : List ℚ) (sc : Scene)
    (d : List Nat) (hW : 0 ≤ canvas.width) (hH : 0 ≤ canvas.height) (h : PoolOk canvas c L sc) :
    PoolOk canvas c L (drawParticles host sc d canvas) := by
  obtain ⟨hlen, hc, hL, _⟩ := h
  have hne : sc.particles ≠ [] := by
    intro h0
    rw [h0] at hlen
    simp at hlen
  refine ⟨?_, ?_, ?_, ?_⟩
  · rw [drawParticles_particles, ensurePool_of_ne_nil host canvas sc hne]
    simpa using hlen
  · rw [drawParticles_randomCalls, ensurePool_of_ne_nil host canvas sc hne]
    exact hc
  · rw [drawParticles_particles, ensurePool_of_ne_nil host canvas sc hne, ← hL]
    simp only [List.map_map]
    apply List.map_congr_left
    intro q _
    rfl
  · intro p hp
    rw [drawParticles_particles] at hp
    obtain ⟨q, _, rfl⟩ := List.mem_map.1 hp
    exact moveParticle_bounds canvas _ q hW hH

theorem poolOk_foldl (host : Host) (canvas : Canvas) (c : Nat) (L : List ℚ)
    (hW : 0 ≤ canvas.width) (hH : 0 ≤ canvas.height) :
    ∀ (frames : List (List Nat)) (sc : Scene), PoolOk canvas c L sc →
      PoolOk canvas c L (frames.foldl (fun t d => drawParticles host t d canvas) sc) := by
  intro frames
  induction frames with
  | nil => intro sc h; exact h
  | cons d rest ih =>
    intro sc h
    exact ih _ (poolOk_next host canvas c L sc d hW hH h)

/-! ## Lemmas on the animation loop -/

theorem renderFrame_particles_of_ne (host : Host) (mode : VisualMode) (canvas : Canvas)
    (d : List Nat) (sc : Scene) (h : mode ≠ VisualMode.particles) :
    (renderFrame host mode canvas d sc).particles = sc.particles ∧
    (renderFrame host mode canvas d sc).randomCalls = sc.randomCalls := by
  cases mode with
  | bars => exact ⟨rfl, rfl⟩
  | circular => exact ⟨rfl, rfl⟩
  | wave => exact ⟨rfl, rfl⟩
  | particles => exact absurd rfl h

theorem renderFrame_particles_mode (host : Host) (canvas : Canvas) (d : List Nat) (sc : Scene) :
    (renderFrame host VisualMode.particles canvas d sc).particles =
      (ensurePool host canvas sc).1.map (moveParticle canvas (intensityOf d)) ∧
    (renderFrame host VisualMode.particles canvas d sc).randomCalls =
      (ensurePool host canvas sc).2 := by
  simp only [renderFrame]
  rw [drawParticles_particles, drawParticles_randomCalls]
  exact ⟨rfl, rfl⟩

theorem bars_frames_keep_pool (host : Host) (canvas : Canvas) :
    ∀ (ds : List (List Nat)) (sc : Scene),
      (ds.foldl (fun t d => renderFrame host VisualMode.bars canvas d t) sc).particles =
        sc.particles ∧
      (ds.foldl (fun t d => renderFrame host VisualMode.bars canvas d t) sc).randomCalls =
        sc.randomCalls := by
  intro ds
  induction ds with
  | nil => intro sc; exact ⟨rfl, rfl⟩
  | cons d rest ih =>
    intro sc
    simp only [List.foldl_cons]
    obtain ⟨h1, h2⟩ := ih (renderFrame host VisualMode.bars canvas d sc)
    rw [h1, h2]
    exact ⟨rfl, rfl⟩

theorem tick_of_no_pending (host : Host) (d : List Nat) (s : App) (h : s.pending = []) :
    tick host d s = s := by
  cases s
  simp only at h
  subst h
  rfl

theorem tick_of_one_pending (host : Host) (d : List Nat) (s : App) (r : FrameRequest)
    (h : s.pending = [r]) :
    tick host d s = draw host r.callback d { s with pending := [] } := by
  simp [tick, h]

theorem tick_after_setVisualMode (host : Host) (d : List Nat) (m : VisualMode) (s : App)
    (r : FrameRequest) (h : s.pending = [r]) :
    (tick host d (setVisualMode m s)).scene =
      renderFrame host r.callback.visualMode r.callback.canvas d s.scene := by
  rw [tick_of_one_pending host d (setVisualMode m s) r h]
  rfl

theorem renderFrame_bars_ctx (host : Host) (canvas : Canvas) (d : List Nat) (sc : Scene) :
    (renderFrame host VisualMode.bars canvas d sc).ctx =
      drawBars ((sc.ctx.setFillStyle (Style.color (Color.rgba 10 10 20 (2 / 10)))).fillRect 0 0
        canvas.width canvas.height) d canvas := rfl

theorem renderFrame_circular_ctx (host : Host) (canvas : Canvas) (d : List Nat) (sc : Scene) :
    (renderFrame host VisualMode.circular canvas d sc).ctx =
      drawCircular host ((sc.ctx.setFillStyle (Style.color (Color.rgba 10 10 20 (2 / 10)))).fillRect
        0 0 canvas.width canvas.height) d canvas := rfl

theorem foldl_add_replicate_zero : ∀ (n acc : Nat),
    List.foldl (fun a b => a + b) acc (List.replicate n 0) = acc := by
  intro n
  induction n with
  | zero => intro acc; rfl
  | succ n ih =>
    intro acc
    rw [List.replicate_succ, List.foldl_cons, ih]
    rfl

theorem intensityOf_silence (n : Nat) : intensityOf (List.replicate n 0) = 0 := by
  unfold intensityOf
  rw [foldl_add_replicate_zero]
  simp

theorem visualize_of_deps (host : Host) (d : List Nat) (s : App) (canvas : Canvas) (n : Nat)
    (hc : s.canvasRef = some canvas) (ha : s.analyser = some n) :
    visualize host d s = draw host ⟨s.visualMode, canvas⟩ d s := by
  simp [visualize, hc, ha]

theorem cancelCurrent_of_one (s : App) (r : FrameRequest) (hp : s.pending = [r])
    (ha : s.animationRef = some r.id) (hr : r.id ≠ 0) : (cancelCurrent s).pending = [] := by
  simp [cancelCurrent, ha, hr, cancelAnimationFrame, hp]

theorem cancelCurrent_of_running (s : App) (h : Running s) : (cancelCurrent s).pending = [] := by
  obtain ⟨_, _, _, _, r, hp, ha, hr⟩ := h
  exact cancelCurrent_of_one s r hp ha hr

theorem cancelCurrent_fields (s : App) :
    (cancelCurrent s).nextHandle = s.nextHandle ∧ (cancelCurrent s).isPlaying = s.isPlaying ∧
    (cancelCurrent s).scene = s.scene ∧ (cancelCurrent s).animationRef = s.animationRef := by
  cases ha : s.animationRef with
  | none => simp [cancelCurrent, ha]
  | some id =>
    by_cases h0 : id = 0
    · simp [cancelCurrent, ha, h0]
    · simp [cancelCurrent, ha, h0, cancelAnimationFrame]

theorem cancelCurrent_of_no_pending (s : App) (h : s.pending = []) :
    (cancelCurrent s).pending = [] := by
  unfold cancelCurrent
  cases ha : s.animationRef with
  | none => simpa using h
  | some id =>
    by_cases h0 : id = 0
    · simpa [h0] using h
    · simp [h0, cancelAnimationFrame, h]

theorem cancelCurrent_of_null (s : App) (h : s.animationRef = none) : cancelCurrent s = s := by
  simp [cancelCurrent, h]

theorem running_tick (host : Host) (d : List Nat) (s : App) (h : Running s) :
    Running (tick host d s) := by
  obtain ⟨h1, h2, h3, h4, r, hp, _, _⟩ := h
  rw [tick_of_one_pending host d s r hp]
  refine ⟨h1, h2, h3, Nat.succ_pos _, ⟨s.nextHandle, r.callback⟩, rfl, rfl, ?_⟩
  exact Nat.pos_iff_ne_zero.1 h4

theorem running_setVisualMode (m : VisualMode) (s : App) (h : Running s) :
    Running (setVisualMode m s) := h

theorem running_upload (b : Bool) (s : App) (h : Running s) :
    Running (handleFileUpload b s) := by
  unfold handleFileUpload
  cases b
  · exact h
  · obtain ⟨h1, h2, _, h4, h5⟩ := h
    exact ⟨h1, h2, rfl, h4, h5⟩

theorem running_run (host : Host) :
    ∀ (evs : List Event) (s : App), (∀ e ∈ evs, e.isToggle = false) → Running s →
      Running (run host s evs) := by
  intro evs
  induction evs with
  | nil => intro s _ h; exact h
  | cons e rest ih =>
    intro s he h
    have hrest : ∀ e ∈ rest, e.isToggle = false := fun x hx => he x (List.mem_cons_of_mem _ hx)
    have hstep : Running (step host s e) := by
      cases e with
      | upload b => exact running_upload b s h
      | togglePlay d =>
        have := he (Event.togglePlay d) (List.mem_cons_self _ _)
        simp [Event.isToggle] at this
      | setVisualMode m => exact running_setVisualMode m s h
      | tick d => exact running_tick host d s h
    exact ih (step host s e) hrest hstep

theorem running_visualize (host : Host) (d : List Nat) (t : App) (c : Canvas) (n : Nat)
    (h1 : t.currentFile = true) (h2 : t.audioRef = true) (hp : t.isPlaying = true)
    (h3 : t.analyser = some n) (h4 : t.canvasRef = some c) (h5 : t.pending = [])
    (h6 : 0 < t.nextHandle) : Running (visualize host d t) := by
  rw [visualize_of_deps host d t c n h4 h3]
  refine ⟨hp, h2, h1, Nat.succ_pos _, ⟨t.nextHandle, ⟨t.visualMode, c⟩⟩, ?_, rfl, ?_⟩
  · simp [draw, requestAnimationFrame, h5]
  · exact Nat.pos_iff_ne_zero.1 h6

theorem running_of_start (host : Host) (d : List Nat) (s : App)
    (hfile : s.currentFile = true) (haudio : s.audioRef = true) (hplay : s.isPlaying = false)
    (hctx : s.audioContext = true) (han : s.analyser.isSome = true)
    (hcv : s.canvasRef.isSome = true) (hpend : s.pending = []) (hid : 0 < s.nextHandle) :
    (togglePlay host d s).raised = false ∧ Running (togglePlay host d s).state := by
  obtain ⟨n, hn⟩ := Option.isSome_iff_exists.1 han
  obtain ⟨c, hc⟩ := Option.isSome_iff_exists.1 hcv
  obtain ⟨isPlaying, currentFile, visualMode, audioContext, analyser, audioRef,
    canvasRef, animationRef, sourceRef, scene, pending, nextHandle⟩ := s
  simp only at hfile haudio hplay hpend hid hctx hn hc
  subst hfile haudio hplay hpend hctx hn hc
  cases sourceRef <;>
    exact ⟨rfl, running_visualize host d _ c n rfl rfl rfl rfl rfl rfl hid⟩

theorem pauseBranch_pending (s : App) (h : s.pending = [] ∨ Running s) :
    (pauseBranch s).pending = [] := by
  unfold pauseBranch
  rcases h with h | h
  · exact cancelCurrent_of_no_pending _ h
  · obtain ⟨_, _, _, _, r, hp, ha, hr⟩ := h
    exact cancelCurrent_of_one _ r hp ha hr

theorem pauseBranch_fields (s : App) :
    (pauseBranch s).nextHandle = s.nextHandle ∧ (pauseBranch s).isPlaying = false ∧
    (pauseBranch s).scene = s.scene := by
  unfold pauseBranch
  obtain ⟨h1, h2, h3, _⟩ := cancelCurrent_fields { s with isPlaying := false }
  exact ⟨h1, h2, h3⟩

theorem cleanup_pending (s : App) (h : s.pending = [] ∨ Running s) :
    (cleanup s).pending = [] := by
  unfold cleanup
  rcases h with h | h
  · exact cancelCurrent_of_no_pending _ h
  · exact cancelCurrent_of_running _ h

theorem togglePlay_of_playing (host : Host) (d : List Nat) (t : App)
    (h2 : t.audioRef = true) (h3 : t.currentFile = true) (h1 : t.isPlaying = true) :
    togglePlay host d t = ⟨pauseBranch t, false⟩ := by
  unfold togglePlay
  rw [if_neg (by simp [h2, h3]), if_pos h1]

theorem idle_run (host : Host) :
    ∀ (evs : List Event) (s : App), (∀ e ∈ evs, e.isToggle = false) →
      s.animationRef = none → s.isPlaying = false → s.pending = [] →
      (run host s evs).animationRef = none ∧ (run host s evs).isPlaying = false ∧
      (run host s evs).pending = [] ∧ (run host s evs).scene = s.scene := by
  intro evs
  induction evs with
  | nil => intro s _ h1 h2 h3; exact ⟨h1, h2, h3, rfl⟩
  | cons e rest ih =>
    intro s he h1 h2 h3
    have hrest : ∀ e ∈ rest, e.isToggle = false := fun x hx => he x (List.mem_cons_of_mem _ hx)
    have hstep : (step host s e).animationRef = none ∧ (step host s e).isPlaying = false ∧
        (step host s e).pending = [] ∧ (step host s e).scene = s.scene := by
      cases e with
      | upload b => cases b <;> exact ⟨h1, h2, h3, rfl⟩
      | togglePlay d =>
        have := he (Event.togglePlay d) (List.mem_cons_self _ _)
        simp [Event.isToggle] at this
      | setVisualMode m => exact ⟨h1, h2, h3, rfl⟩
      | tick d =>
        show (tick host d s).animationRef = none ∧ (tick host d s).isPlaying = false ∧
          (tick host d s).pending = [] ∧ (tick host d s).scene = s.scene
        rw [tick_of_no_pending host d s h3]
        exact ⟨h1, h2, h3, rfl⟩
    obtain ⟨a1, a2, a3, a4⟩ := hstep
    obtain ⟨b1, b2, b3, b4⟩ := ih (step host s e) hrest a1 a2 a3
    exact ⟨b1, b2, b3, b4.trans a4⟩

/-- C2: for a snapshot `s` of length `N ≥ 1` with samples in [0,255] on a surface of width
`W > 0` and height `H > 0`, `drawBars` paints exactly `N` rectangles after what was already
painted, the `i`-th for bin `i`: filled with the gradient of hue `(i/N)*360`, placed at
`x = i * barWidth`, `y = H - h`, of width `barWidth - 2` and height `h = (s[i]/255)*H*0.8`;
that height lies in `[0, 0.8*H]`, the hue lies in `[0, 360)`, and the hue is strictly
increasing in the bin index. -/
theorem drawBars_spec (ctx : Ctx) (s : List Nat) (canvas : Canvas) (N : Nat)
    (hN : 1 ≤ N) (hlen : s.length = N) (hs : ∀ v ∈ s, v ≤ 255)
    (_hW : 0 < canvas.width) (hH : 0 < canvas.height) :
    ∃ ops : List Painted,
      (drawBars ctx s canvas).log = ctx.log ++ ops ∧ ops.length = N ∧
      (∀ (i : Nat) (v : Nat), s[i]? = some v →
        ops[i]? = some (Painted.fillRect
          (Style.gradient 0 (canvas.height - ((v : ℚ) / 255) * canvas.height * (8 / 10)) 0
            canvas.height
            [(0, Color.hsla (((i : ℚ) / (N : ℚ)) * 360) 100 60 (8 / 10)),
             (1, Color.hsla (((i : ℚ) / (N : ℚ)) * 360) 100 40 (8 / 10))])
          ((i : ℚ) * ((canvas.width / (N : ℚ)) * (5 / 2)))
          (canvas.height - ((v : ℚ) / 255) * canvas.height * (8 / 10))
          ((canvas.width / (N : ℚ)) * (5 / 2) - 2)
          (((v : ℚ) / 255) * canvas.height * (8 / 10))) ∧
        0 ≤ ((v : ℚ) / 255) * canvas.height * (8 / 10) ∧
        ((v : ℚ) / 255) * canvas.height * (8 / 10) ≤ (8 / 10) * canvas.height ∧
        0 ≤ ((i : ℚ) / (N : ℚ)) * 360 ∧ ((i : ℚ) / (N : ℚ)) * 360 < 360) ∧
      (∀ i j : Nat, i < j → j < N → ((i : ℚ) / (N : ℚ)) * 360 < ((j : ℚ) / (N : ℚ)) * 360) := by
  obtain ⟨ops, hlog, hl, hget⟩ :=
    drawBarsLoop_log canvas s.length ((canvas.width / (s.length : ℚ)) * (5 / 2)) s 0 0 ctx
  subst hlen
  refine ⟨ops, hlog, hl, ?_, ?_⟩
  · intro i v hv
    have hi : i < s.length := by
      rcases List.getElem?_eq_some.1 hv with ⟨h, _⟩
      exact h
    have hmem : v ∈ s := List.getElem?_mem hv
    refine ⟨?_, barHeight_nonneg canvas v hH.le, barHeight_le canvas v hH.le (hs v hmem),
      hueOf_nonneg i s.length, hueOf_lt_360 i s.length hi⟩
    have h := hget i v hv
    simpa [barGradient, barHeight, hueOf] using h
  · intro i j hij _
    exact hueOf_lt i j s.length hN hij

/-- C2, at the scenario of the specification: `N = 4`, samples `[0, 255, 128, 64]`,
`W = H = 100`.  Four rectangles of heights `0`, `80`, `2048/51` (about 40), `1024/51`
(about 20) and hues `0`, `90`, `180`, `270`. -/
theorem drawBars_spec_witness :
    (∃ ops : List Painted,
      (drawBars Ctx.fresh [0, 255, 128, 64] ⟨100, 100⟩).log = Ctx.fresh.log ++ ops ∧
      ops.length = 4) ∧
    (drawBars Ctx.fresh [0, 255, 128, 64] ⟨100, 100⟩).log =
      [Painted.fillRect (Style.gradient 0 100 0 100
          [(0, Color.hsla 0 100 60 (4 / 5)), (1, Color.hsla 0 100 40 (4 / 5))])
          0 100 (121 / 2) 0,
       Painted.fillRect (Style.gradient 0 20 0 100
          [(0, Color.hsla 90 100 60 (4 / 5)), (1, Color.hsla 90 100 40 (4 / 5))])
          (125 / 2) 20 (121 / 2) 80,
       Painted.fillRect (Style.gradient 0 (3052 / 51) 0 100
          [(0, Color.hsla 180 100 60 (4 / 5)), (1, Color.hsla 180 100 40 (4 / 5))])
          125 (3052 / 51) (121 / 2) (2048 / 51),
       Painted.fillRect (Style.gradient 0 (4076 / 51) 0 100
          [(0, Color.hsla 270 100 60 (4 / 5)), (1, Color.hsla 270 100 40 (4 / 5))])
          (375 / 2) (4076 / 51) (121 / 2) (1024 / 51)] ∧
    |(2048 / 51 : ℚ) - 40| < 1 / 2 ∧ |(1024 / 51 : ℚ) - 20| < 1 / 2 := by
  refine ⟨?_, ?_, ?_, ?_⟩
  · obtain ⟨ops, h1, h2, _⟩ := drawBars_spec Ctx.fresh [0, 255, 128, 64] ⟨100, 100⟩ 4
      (by norm_num) rfl (by intro v hv; simp at hv; omega) (by norm_num) (by norm_num)
    exact ⟨ops, h1, h2⟩
  · simp [drawBars, drawBarsLoop, Ctx.fresh, Ctx.fillRect, Ctx.setFillStyle, barGradient,
      barHeight, hueOf]
    norm_num
  · rw [abs_lt]; constructor <;> norm_num
  · rw [abs_lt]; constructor <;> norm_num

/-! ## C9: drawWave -/

/-- C9: for a snapshot `s` of length `N ≥ 1` on a surface of width `W ≥ 0`, `drawWave` strokes
two paths after what was already painted; each has exactly `N` vertices, vertex `0` is a
`moveTo` and every later vertex a `lineTo`, and in both the `k`-th vertex has
`x = k * (W / N)`: `x` starts at `0`, never decreases, and consecutive vertices are `W / N`
apart. -/
theorem drawWave_spec (host : Host) (ctx : Ctx) (s : List Nat) (canvas : Canvas) (N : Nat)
    (_hN : 1 ≤ N) (hlen : s.length = N) (hW : 0 ≤ canvas.width) :
    ∃ p1 p2 : List PathCmd,
      (drawWave host ctx s canvas).log = ctx.log ++
        [Painted.stroke (Style.color (Color.hex "#a855f7")) 3 p1,
         Painted.stroke (Style.color (Color.hex "#ec4899")) 2 p2] ∧
      p1.length = N ∧ p2.length = N ∧
      (∀ (k : Nat) (v : Nat), s[k]? = some v →
        p1[k]? = some (if k = 0
          then PathCmd.moveTo ((k : ℚ) * (canvas.width / (N : ℚ))) (waveY canvas v)
          else PathCmd.lineTo ((k : ℚ) * (canvas.width / (N : ℚ))) (waveY canvas v)) ∧
        p2[k]? = some (if k = 0
          then PathCmd.moveTo ((k : ℚ) * (canvas.width / (N : ℚ)))
            (oscY host canvas ((k : ℚ) * (canvas.width / (N : ℚ))) v)
          else PathCmd.lineTo ((k : ℚ) * (canvas.width / (N : ℚ)))
            (oscY host canvas ((k : ℚ) * (canvas.width / (N : ℚ))) v))) ∧
      ((0 : Nat) : ℚ) * (canvas.width / (N : ℚ)) = 0 ∧
      (∀ k : Nat, (k : ℚ) * (canvas.width / (N : ℚ)) ≤
        ((k + 1 : Nat) : ℚ) * (canvas.width / (N : ℚ))) ∧
      (∀ k : Nat, ((k + 1 : Nat) : ℚ) * (canvas.width / (N : ℚ)) -
        (k : ℚ) * (canvas.width / (N : ℚ)) = canvas.width / (N : ℚ)) := by
  subst hlen
  obtain ⟨p1, h1, l1, g1⟩ := drawWaveLoop_path canvas (canvas.width / (s.length : ℚ)) s 0 0
    ((ctx.setLineWidth 3).setStrokeStyle (Style.color (Color.hex "#a855f7"))).beginPath
  obtain ⟨p2, h2, l2, g2⟩ := drawOscLoop_path host canvas (canvas.width / (s.length : ℚ)) s 0 0
    (((({ ((ctx.setLineWidth 3).setStrokeStyle (Style.color (Color.hex "#a855f7"))).beginPath
        with path := ((ctx.setLineWidth 3).setStrokeStyle
          (Style.color (Color.hex "#a855f7"))).beginPath.path ++ p1 } : Ctx).stroke.setStrokeStyle
      (Style.color (Color.hex "#ec4899"))).setLineWidth 2).beginPath)
  have hsw : 0 ≤ canvas.width / (s.length : ℚ) := div_nonneg hW (Nat.cast_nonneg _)
  refine ⟨p1, p2, ?_, l1, l2, ?_, by simp, ?_, ?_⟩
  · simp only [drawWave]
    rw [h1, h2]
    simp [Ctx.stroke, Ctx.setStrokeStyle, Ctx.setLineWidth, Ctx.beginPath]
  · intro k v hk
    have a1 := g1 k v hk
    have a2 := g2 k v hk
    simp only [zero_add] at a1 a2
    exact ⟨a1, a2⟩
  · intro k
    have : ((k + 1 : Nat) : ℚ) = (k : ℚ) + 1 := by push_cast; ring
    rw [this]
    nlinarith
  · intro k
    push_cast
    ring

/-- C9, at `N = 4`, `W = 100`. -/
theorem drawWave_spec_witness :
    ∃ p1 p2 : List PathCmd,
      (drawWave ⟨fun _ => 0, fun _ => 0, fun _ => 1, fun _ => 0, 3⟩ Ctx.fresh [0, 255, 128, 64]
        ⟨100, 100⟩).log = Ctx.fresh.log ++
        [Painted.stroke (Style.color (Color.hex "#a855f7")) 3 p1,
         Painted.stroke (Style.color (Color.hex "#ec4899")) 2 p2] ∧
      p1.length = 4 ∧ p2.length = 4 := by
  obtain ⟨p1, p2, h, l1, l2, _⟩ := drawWave_spec ⟨fun _ => 0, fun _ => 0, fun _ => 1, fun _ => 0, 3⟩
    Ctx.fresh [0, 255, 128, 64] ⟨100, 100⟩ 4 (by norm_num) rfl (by norm_num)
  exact ⟨p1, p2, h, l1, l2⟩

/-! ## C10: the particle-to-bin index -/

/-- C10: for `N ≥ 1` bins, a pool of `c ≥ 1` particles and a particle index `i < c`, the index
`floor((i / c) * N)` lies in `[0, N - 1]`; so for every snapshot of length `N` with samples in
[0,255] the read `dataArray[freqIndex]` is a sample `v` of the snapshot, and the amplitude is
`v / 255`, a number in `[0, 1]`. -/
theorem freqIndex_in_range (N c i : Nat) (hN : 1 ≤ N) (hc : 1 ≤ c) (hi : i < c) :
    0 ≤ freqIndex i c N ∧ freqIndex i c N ≤ (N : ℤ) - 1 ∧
    ∀ dataArray : List Nat, dataArray.length = N → (∀ v ∈ dataArray, v ≤ 255) →
      ∃ v : Nat, v ∈ dataArray ∧ sampleAt dataArray (freqIndex i c N) = some v ∧
        amplitudeAt dataArray i c = some ((v : ℚ) / 255) ∧
        0 ≤ (v : ℚ) / 255 ∧ (v : ℚ) / 255 ≤ 1 := by
  have hc0 : (0 : ℚ) < (c : ℚ) := by exact_mod_cast hc
  have hN0 : (0 : ℚ) < (N : ℚ) := by exact_mod_cast hN
  have hic : (i : ℚ) / (c : ℚ) < 1 := (div_lt_one hc0).2 (by exact_mod_cast hi)
  have hq0 : (0 : ℚ) ≤ ((i : ℚ) / (c : ℚ)) * (N : ℚ) := by positivity
  have hqN : ((i : ℚ) / (c : ℚ)) * (N : ℚ) < ((N : ℤ) : ℚ) := by
    push_cast
    nlinarith
  have h0 : 0 ≤ freqIndex i c N := Int.floor_nonneg.2 hq0
  have h1 : freqIndex i c N < (N : ℤ) := Int.floor_lt.2 hqN
  refine ⟨h0, by omega, ?_⟩
  intro dataArray hlen hs
  have hlt : (freqIndex i c N).toNat < dataArray.length := by omega
  refine ⟨dataArray[(freqIndex i c N).toNat], List.getElem_mem _, ?_, ?_, by positivity, ?_⟩
  · unfold sampleAt
    rw [if_neg (by omega)]
    exact List.getElem?_eq_getElem hlt
  · unfold amplitudeAt sampleAt
    rw [hlen, if_neg (by omega), List.getElem?_eq_getElem hlt]
    rfl
  · rw [div_le_one (by norm_num)]
    exact_mod_cast hs _ (List.getElem_mem _)

/-- C10, at the program's values: particle 99 of 100 on 256 bins reads bin 253. -/
theorem freqIndex_in_range_witness :
    (0 ≤ freqIndex 99 100 256 ∧ freqIndex 99 100 256 ≤ ((256 : Nat) : ℤ) - 1) ∧
    freqIndex 99 100 256 = 253 := by
  refine ⟨?_, ?_⟩
  · have h := freqIndex_in_range 256 100 99 (by norm_num) (by norm_num) (by norm_num)
    exact ⟨h.1, h.2.1⟩
  · unfold freqIndex
    rw [Int.floor_eq_iff]
    constructor <;> norm_num

/-! ## C1: the particle pool -/

/-- C1: on a surface with `W ≥ 0` and `H ≥ 0`, starting from the empty pool, after `k ≥ 1`
frames of `drawParticles` on snapshots of length `N ≥ 1` with samples in [0,255] the pool holds
exactly 100 particles, every one with `0 ≤ x ≤ W` and `0 ≤ y ≤ H`.  The pool was created once:
`Math.random()` was called exactly 500 times (five per particle, all in the first frame), and
the particles still carry, in order, the sizes drawn then. -/
theorem particle_pool_invariant (host : Host) (canvas : Canvas) (N : Nat)
    (frames : List (List Nat)) (sc : Scene)
    (hW : 0 ≤ canvas.width) (hH : 0 ≤ canvas.height) (_hN : 1 ≤ N)
    (_hfr : ∀ d ∈ frames, d.length = N ∧ ∀ v ∈ d, v ≤ 255)
    (hk : 1 ≤ frames.length) (hsc : sc.particles = []) :
    (frames.foldl (fun t d => drawParticles host t d canvas) sc).particles.length = 100 ∧
    (frames.foldl (fun t d => drawParticles host t d canvas) sc).randomCalls =
      sc.randomCalls + 500 ∧
    (frames.foldl (fun t d => drawParticles host t d canvas) sc).particles.map Particle.size =
      (List.range 100).map (fun i => host.random (sc.randomCalls + 5 * i + 4) * 3 + 1) ∧
    ∀ p ∈ (frames.foldl (fun t d => drawParticles host t d canvas) sc).particles,
      0 ≤ p.x ∧ p.x ≤ canvas.width ∧ 0 ≤ p.y ∧ p.y ≤ canvas.height := by
  cases frames with
  | nil => simp at hk
  | cons d rest =>
    exact poolOk_foldl host canvas _ _ hW hH rest _ (poolOk_first host canvas sc d hW hH hsc)

/-- C1, at three frames on a 1200 by 600 surface with snapshots of two bins. -/
theorem particle_pool_invariant_witness :
    (List.foldl (fun t d => drawParticles ⟨fun _ => 3 / 4, fun _ => 0, fun _ => 1, fun _ => 0, 3⟩
        t d ⟨1200, 600⟩) Scene.fresh [[0, 255], [10, 20], [255, 255]]).particles.length = 100 ∧
    ∀ p ∈ (List.foldl (fun t d => drawParticles
        ⟨fun _ => 3 / 4, fun _ => 0, fun _ => 1, fun _ => 0, 3⟩ t d ⟨1200, 600⟩)
        Scene.fresh [[0, 255], [10, 20], [255, 255]]).particles,
      0 ≤ p.x ∧ p.x ≤ 1200 ∧ 0 ≤ p.y ∧ p.y ≤ 600 := by
  have h := particle_pool_invariant ⟨fun _ => 3 / 4, fun _ => 0, fun _ => 1, fun _ => 0, 3⟩
    ⟨1200, 600⟩ 2 [[0, 255], [10, 20], [255, 255]] Scene.fresh (by norm_num) (by norm_num)
    (by norm_num) (by
      intro d hd
      simp only [List.mem_cons, List.mem_singleton, List.not_mem_nil, or_false] at hd
      rcases hd with rfl | rfl | rfl <;> refine ⟨rfl, ?_⟩ <;> intro v hv <;>
        simp only [List.mem_cons, List.mem_singleton, List.not_mem_nil, or_false] at hv <;>
        omega)
    (by simp) rfl
  exact ⟨h.1, h.2.2.2⟩

/-! ## C8: reflection at the edges -/

/-- C8: in one frame of `drawParticles` on a snapshot of at least one bin, the pool keeps its
length and every particle `p` of the pool (as it stands after the lazy creation) is replaced, at
the same index, by a particle `q` such that, with `x' = p.x + p.vx * (1 + intensity)`:
if `x' < 0` or `x' > W` then `q.vx = -p.vx` and `q.x` is `x'` clamped, `max 0 (min W x')`;
if `0 ≤ x' ≤ W` then `q.vx = p.vx` and `q.x = x'`; and the same on the other axis with
`y`, `vy` and `H`. -/
theorem drawParticles_reflects (host : Host) (sc : Scene) (dataArray : List Nat)
    (canvas : Canvas) (_hN : 1 ≤ dataArray.length) :
    (drawParticles host sc dataArray canvas).particles.length =
      (ensurePool host canvas sc).1.length ∧
    ∀ (i : Nat) (p : Particle), (ensurePool host canvas sc).1[i]? = some p →
      ∃ q : Particle, (drawParticles host sc dataArray canvas).particles[i]? = some q ∧
        ((p.x + p.vx * (1 + intensityOf dataArray) < 0 ∨
            p.x + p.vx * (1 + intensityOf dataArray) > canvas.width) →
          q.vx = -p.vx ∧
          q.x = max 0 (min canvas.width (p.x + p.vx * (1 + intensityOf dataArray)))) ∧
        ((0 ≤ p.x + p.vx * (1 + intensityOf dataArray) ∧
            p.x + p.vx * (1 + intensityOf dataArray) ≤ canvas.width) →
          q.vx = p.vx ∧ q.x = p.x + p.vx * (1 + intensityOf dataArray)) ∧
        ((p.y + p.vy * (1 + intensityOf dataArray) < 0 ∨
            p.y + p.vy * (1 + intensityOf dataArray) > canvas.height) →
          q.vy = -p.vy ∧
          q.y = max 0 (min canvas.height (p.y + p.vy * (1 + intensityOf dataArray)))) ∧
        ((0 ≤ p.y + p.vy * (1 + intensityOf dataArray) ∧
            p.y + p.vy * (1 + intensityOf dataArray) ≤ canvas.height) →
          q.vy = p.vy ∧ q.y = p.y + p.vy * (1 + intensityOf dataArray)) := by
  refine ⟨by rw [drawParticles_particles]; simp, ?_⟩
  intro i p hp
  refine ⟨moveParticle canvas (intensityOf dataArray) p, ?_, ?_, ?_, ?_, ?_⟩
  · rw [drawParticles_particles, List.getElem?_map, hp]
    rfl
  · intro h
    simp only [moveParticle]
    rw [if_pos h]
    exact ⟨by ring, trivial⟩
  · rintro ⟨h0, hW⟩
    simp only [moveParticle]
    rw [if_neg (by rintro (h | h) <;> linarith)]
    exact ⟨rfl, by rw [min_eq_right hW, max_eq_right h0]⟩
  · intro h
    simp only [moveParticle]
    rw [if_pos h]
    exact ⟨by ring, trivial⟩
  · rintro ⟨h0, hH⟩
    simp only [moveParticle]
    rw [if_neg (by rintro (h | h) <;> linarith)]
    exact ⟨rfl, by rw [min_eq_right hH, max_eq_right h0]⟩

/-- C8, at a particle one step from the right edge of a 100 by 100 surface: the step leaves
the surface, the velocity is negated and the coordinate is clamped to the edge. -/
theorem drawParticles_reflects_witness :
    ∃ q : Particle,
      (drawParticles Host.sample ⟨Ctx.fresh, [⟨99, 50, 2, 0, 1⟩], 500⟩ [0] ⟨100, 100⟩).particles[0]?
        = some q ∧ q.vx = -2 ∧ q.x = 100 ∧ q.vy = 0 ∧ q.y = 50 := by
  have hpool : (ensurePool Host.sample ⟨100, 100⟩ ⟨Ctx.fresh, [⟨99, 50, 2, 0, 1⟩], 500⟩).1[0]? =
      some ⟨99, 50, 2, 0, 1⟩ := by
    rw [ensurePool_of_ne_nil _ _ _ (by simp)]
    rfl
  obtain ⟨q, hq, hx1, _, _, hy2⟩ := (drawParticles_reflects Host.sample
    ⟨Ctx.fresh, [⟨99, 50, 2, 0, 1⟩], 500⟩ [0] ⟨100, 100⟩ (by simp)).2 0 ⟨99, 50, 2, 0, 1⟩ hpool
  have hI : intensityOf [0] = 0 := by simp [intensityOf]
  rw [hI] at hx1 hy2
  have a := hx1 (Or.inr (by norm_num))
  have b := hy2 ⟨by norm_num, by norm_num⟩
  refine ⟨q, hq, a.1, ?_, ?_, ?_⟩
  · rw [a.2]
    norm_num
  · rw [b.1]
  · rw [b.2]
    norm_num

/-! ## C3: stopping the loop -/

/-- C3: take a state with a file loaded, the audio element, context, analyser and canvas
present, playback off and no frame callback pending; click play (`togglePlay`), then let any
events other than the play button happen (any number `k ≥ 0` of animation frames, mode changes,
uploads).  Nothing was raised, playback is on, exactly one frame callback is pending and
`animationRef.current` holds its handle.  A click on the play button is then the pause branch
and raises nothing; the pause branch and the unmount cleanup each leave no pending callback,
the pause branch turns playback off, and an animation frame after either stop changes nothing
(no frame is drawn).  And in every state where `animationRef.current` is null and playback is
off, the pause branch and the cleanup cancel nothing (the pending list is unchanged), paint
nothing, and playback stays off; such is every state reached from the mounted component
without a click on the play button, where the cleanup leaves nothing pending, nothing painted
and playback off.  (Handles of `requestAnimationFrame` are non-zero: `0 < s.nextHandle`.) -/
theorem stop_cancels_pending (host : Host) (s : App) (d0 : List Nat) (evs : List Event)
    (hfile : s.currentFile = true) (haudio : s.audioRef = true) (hplay : s.isPlaying = false)
    (hctx : s.audioContext = true) (han : s.analyser.isSome = true)
    (hcv : s.canvasRef.isSome = true) (hpend : s.pending = []) (hid : 0 < s.nextHandle)
    (hevs : ∀ e ∈ evs, e.isToggle = false) :
    ((togglePlay host d0 s).raised = false ∧
      (run host (togglePlay host d0 s).state evs).isPlaying = true ∧
      (∃ r : FrameRequest, (run host (togglePlay host d0 s).state evs).pending = [r] ∧
        (run host (togglePlay host d0 s).state evs).animationRef = some r.id) ∧
      (∀ d : List Nat,
        (togglePlay host d (run host (togglePlay host d0 s).state evs)).raised = false ∧
        (togglePlay host d (run host (togglePlay host d0 s).state evs)).state =
          pauseBranch (run host (togglePlay host d0 s).state evs)) ∧
      (pauseBranch (run host (togglePlay host d0 s).state evs)).pending = [] ∧
      (pauseBranch (run host (togglePlay host d0 s).state evs)).isPlaying = false ∧
      (cleanup (run host (togglePlay host d0 s).state evs)).pending = [] ∧
      (∀ d : List Nat, tick host d (pauseBranch (run host (togglePlay host d0 s).state evs)) =
        pauseBranch (run host (togglePlay host d0 s).state evs)) ∧
      (∀ d : List Nat, tick host d (cleanup (run host (togglePlay host d0 s).state evs)) =
        cleanup (run host (togglePlay host d0 s).state evs))) ∧
    (∀ u : App, u.animationRef = none → u.isPlaying = false →
      (pauseBranch u).pending = u.pending ∧ (pauseBranch u).isPlaying = false ∧
      (pauseBranch u).scene = u.scene ∧
      (cleanup u).pending = u.pending ∧ (cleanup u).isPlaying = false ∧
      (cleanup u).scene = u.scene) ∧
    (∀ (canvas : Canvas) (bins : Nat) (evs0 : List Event), (∀ e ∈ evs0, e.isToggle = false) →
      (run host (App.init canvas bins) evs0).animationRef = none ∧
      (cleanup (run host (App.init canvas bins) evs0)).pending = [] ∧
      (cleanup (run host (App.init canvas bins) evs0)).isPlaying = false ∧
      (cleanup (run host (App.init canvas bins) evs0)).scene.ctx.log = []) := by
  obtain ⟨hr0, hrun0⟩ := running_of_start host d0 s hfile haudio hplay hctx han hcv hpend hid
  have hR := running_run host evs _ hevs hrun0
  have hR2 := hR
  obtain ⟨h1, h2, h3, _, r, hp, ha, _⟩ := hR2
  have hpp := pauseBranch_pending _ (Or.inr hR)
  have hcp := cleanup_pending _ (Or.inr hR)
  refine ⟨⟨hr0, h1, ⟨r, hp, ha⟩, ?_, hpp, (pauseBranch_fields _).2.1, hcp,
    fun d => tick_of_no_pending host d _ hpp, fun d => tick_of_no_pending host d _ hcp⟩, ?_, ?_⟩
  · intro d
    rw [togglePlay_of_playing host d _ h2 h3 h1]
    exact ⟨rfl, rfl⟩
  · intro u hu hpl
    have e1 : pauseBranch u = { u with isPlaying := false } := by
      unfold pauseBranch
      exact cancelCurrent_of_null _ hu
    have e2 : cancelCurrent u = u := cancelCurrent_of_null u hu
    refine ⟨by rw [e1], by rw [e1], by rw [e1], ?_, ?_, ?_⟩
    · simp only [cleanup, e2]
    · simp only [cleanup, e2]
      exact hpl
    · simp only [cleanup, e2]
  · intro canvas bins evs0 h0
    obtain ⟨a1, a2, a3, a4⟩ := idle_run host evs0 (App.init canvas bins) h0 rfl rfl rfl
    have e2 : cleanup (run host (App.init canvas bins) evs0) = run host (App.init canvas bins) evs0 :=
      cancelCurrent_of_null _ a1
    rw [e2]
    refine ⟨a1, a3, a2, ?_⟩
    rw [a4]
    rfl

/-- C3, at the program's surface (1200 by 600, 256 bins): play, a frame, a switch to the wave
mode, another frame, then pause. -/
theorem stop_cancels_pending_witness :
    (pauseBranch (run Host.sample
      (togglePlay Host.sample (List.replicate 256 0)
        (handleFileUpload true (App.init ⟨1200, 600⟩ 256))).state
      [Event.tick (List.replicate 256 7), Event.setVisualMode VisualMode.wave,
        Event.tick (List.replicate 256 9)])).pending = [] ∧
    (cleanup (App.init ⟨1200, 600⟩ 256)).pending = [] := by
  have h := stop_cancels_pending Host.sample
    (handleFileUpload true (App.init ⟨1200, 600⟩ 256))
    (List.replicate 256 0)
    [Event.tick (List.replicate 256 7), Event.setVisualMode VisualMode.wave,
      Event.tick (List.replicate 256 9)]
    rfl rfl rfl rfl rfl rfl rfl (by decide)
    (by
      intro e he
      simp only [List.mem_cons, List.mem_singleton, List.not_mem_nil, or_false] at he
      rcases he with rfl | rfl | rfl <;> rfl)
  exact ⟨h.1.2.2.2.2.1, (h.2.1 (App.init ⟨1200, 600⟩ 256) rfl rfl).2.2.2.1⟩

/-! ## C4: one pending callback -/

/-- C5 fails on the code: on the mounted component (canvas 1200 by 600, 256 bins) play is
clicked in the bars mode, then the circular mode is selected, then a frame runs on a snapshot
of 256 samples of value 128.  The selected mode is circular, but the pending callback is the
`draw` that captured the bars mode, and the frame paints the fade and then what `drawBars`
paints (257 operations in all), not what `drawCircular` paints (258 operations: the fade, the
reference circle and 256 strokes). -/
theorem stale_mode_after_switch :
    (setVisualMode VisualMode.circular (togglePlay Host.sample (List.replicate 256 128)
      (handleFileUpload true (App.init ⟨1200, 600⟩ 256))).state).visualMode =
        VisualMode.circular ∧
    (setVisualMode VisualMode.circular (togglePlay Host.sample (List.replicate 256 128)
      (handleFileUpload true (App.init ⟨1200, 600⟩ 256))).state).pending =
        [⟨1, ⟨VisualMode.bars, ⟨1200, 600⟩⟩⟩] ∧
    (tick Host.sample (List.replicate 256 128) (setVisualMode VisualMode.circular
      (togglePlay Host.sample (List.replicate 256 128)
        (handleFileUpload true (App.init ⟨1200, 600⟩ 256))).state)).scene.ctx =
      drawBars
        (((togglePlay Host.sample (List.replicate 256 128)
            (handleFileUpload true (App.init ⟨1200, 600⟩ 256))).state.scene.ctx.setFillStyle
          (Style.color (Color.rgba 10 10 20 (2 / 10)))).fillRect 0 0 1200 600)
        (List.replicate 256 128) ⟨1200, 600⟩ ∧
    (tick Host.sample (List.replicate 256 128) (setVisualMode VisualMode.circular
      (togglePlay Host.sample (List.replicate 256 128)
        (handleFileUpload true (App.init ⟨1200, 600⟩ 256))).state)).scene.ctx.log.length =
      (togglePlay Host.sample (List.replicate 256 128)
        (handleFileUpload true (App.init ⟨1200, 600⟩ 256))).state.scene.ctx.log.length + 257 ∧
    (renderFrame Host.sample VisualMode.circular ⟨1200, 600⟩ (List.replicate 256 128)
      (togglePlay Host.sample (List.replicate 256 128)
        (handleFileUpload true (App.init ⟨1200, 600⟩ 256))).state.scene).ctx.log.length =
      (togglePlay Host.sample (List.replicate 256 128)
        (handleFileUpload true (App.init ⟨1200, 600⟩ 256))).state.scene.ctx.log.length + 258 ∧
    (tick Host.sample (List.replicate 256 128) (setVisualMode VisualMode.circular
      (togglePlay Host.sample (List.replicate 256 128)
        (handleFileUpload true (App.init ⟨1200, 600⟩ 256))).state)).scene.ctx.log ≠
      (renderFrame Host.sample VisualMode.circular ⟨1200, 600⟩ (List.replicate 256 128)
        (togglePlay Host.sample (List.replicate 256 128)
          (handleFileUpload true (App.init ⟨1200, 600⟩ 256))).state.scene).ctx.log := by
  have hB : (tick Host.sample (List.replicate 256 128) (setVisualMode VisualMode.circular
      (togglePlay Host.sample (List.replicate 256 128)
        (handleFileUpload true (App.init ⟨1200, 600⟩ 256))).state)).scene.ctx =
      drawBars
        (((togglePlay Host.sample (List.replicate 256 128)
            (handleFileUpload true (App.init ⟨1200, 600⟩ 256))).state.scene.ctx.setFillStyle
          (Style.color (Color.rgba 10 10 20 (2 / 10)))).fillRect 0 0 1200 600)
        (List.replicate 256 128) ⟨1200, 600⟩ := by
    rw [tick_after_setVisualMode Host.sample (List.replicate 256 128) VisualMode.circular _
      ⟨1, ⟨VisualMode.bars, ⟨1200, 600⟩⟩⟩ rfl]
    exact renderFrame_bars_ctx Host.sample ⟨1200, 600⟩ (List.replicate 256 128) _
  have hC : (renderFrame Host.sample VisualMode.circular ⟨1200, 600⟩ (List.replicate 256 128)
      (togglePlay Host.sample (List.replicate 256 128)
        (handleFileUpload true (App.init ⟨1200, 600⟩ 256))).state.scene).ctx =
      drawCircular Host.sample
        (((togglePlay Host.sample (List.replicate 256 128)
            (handleFileUpload true (App.init ⟨1200, 600⟩ 256))).state.scene.ctx.setFillStyle
          (Style.color (Color.rgba 10 10 20 (2 / 10)))).fillRect 0 0 1200 600)
        (List.replicate 256 128) ⟨1200, 600⟩ :=
    renderFrame_circular_ctx Host.sample ⟨1200, 600⟩ (List.replicate 256 128) _
  refine ⟨rfl, rfl, hB, ?_, ?_, ?_⟩
  · rw [hB, bars_frame_log_length, List.length_replicate]
  · rw [hC, circular_frame_log_length, List.length_replicate]
  · intro h
    have hl := congrArg List.length h
    rw [hB, hC, bars_frame_log_length, circular_frame_log_length, List.length_replicate] at hl
    omega

/-! ## C6: a missing canvas or analyser -/

/-- C7 fails as stated: on the 1200 by 600 surface with `Math.random()` returning `3/4` and
silent snapshots of 256 bins, the first particles frame leaves particle 0 at `x = 1801/2`,
`y = 901/2` with velocity `1/2` on both axes; after one frame in the bars mode it is still
there, whereas one more advance would have put it at `x = 901`, `y = 451`. -/
theorem carry_over_counterexample :
    (renderFrame Host.sample VisualMode.bars ⟨1200, 600⟩ (List.replicate 256 0)
      (renderFrame Host.sample VisualMode.particles ⟨1200, 600⟩ (List.replicate 256 0)
        Scene.fresh)).particles.head? = some ⟨1801 / 2, 901 / 2, 1 / 2, 1 / 2, 13 / 4⟩ ∧
    ((renderFrame Host.sample VisualMode.particles ⟨1200, 600⟩ (List.replicate 256 0)
      Scene.fresh).particles.map
        (moveParticle ⟨1200, 600⟩ (intensityOf (List.replicate 256 0)))).head? =
      some ⟨901, 451, 1 / 2, 1 / 2, 13 / 4⟩ ∧
    (renderFrame Host.sample VisualMode.bars ⟨1200, 600⟩ (List.replicate 256 0)
      (renderFrame Host.sample VisualMode.particles ⟨1200, 600⟩ (List.replicate 256 0)
        Scene.fresh)).particles ≠
      (renderFrame Host.sample VisualMode.particles ⟨1200, 600⟩ (List.replicate 256 0)
        Scene.fresh).particles.map
          (moveParticle ⟨1200, 600⟩ (intensityOf (List.replicate 256 0))) := by
  have hI : intensityOf (List.replicate 256 0) = 0 := intensityOf_silence 256
  have hP : (renderFrame Host.sample VisualMode.particles ⟨1200, 600⟩ (List.replicate 256 0)
      Scene.fresh).particles.head? = some ⟨1801 / 2, 901 / 2, 1 / 2, 1 / 2, 13 / 4⟩ := by
    rw [(renderFrame_particles_mode Host.sample ⟨1200, 600⟩ (List.replicate 256 0) _).1,
      ensurePool_of_nil _ _ _ rfl, hI]
    simp only [List.head?_map, List.head?_range]
    simp [moveParticle, newParticle, Host.sample]
    norm_num
  have hB : (renderFrame Host.sample VisualMode.bars ⟨1200, 600⟩ (List.replicate 256 0)
      (renderFrame Host.sample VisualMode.particles ⟨1200, 600⟩ (List.replicate 256 0)
        Scene.fresh)).particles.head? = some ⟨1801 / 2, 901 / 2, 1 / 2, 1 / 2, 13 / 4⟩ := by
    rw [(renderFrame_particles_of_ne Host.sample VisualMode.bars ⟨1200, 600⟩
      (List.replicate 256 0) _ (by decide)).1]
    exact hP
  have hM : ((renderFrame Host.sample VisualMode.particles ⟨1200, 600⟩ (List.replicate 256 0)
      Scene.fresh).particles.map
        (moveParticle ⟨1200, 600⟩ (intensityOf (List.replicate 256 0)))).head? =
      some ⟨901, 451, 1 / 2, 1 / 2, 13 / 4⟩ := by
    rw [List.head?_map, hP, hI]
    simp [moveParticle]
    norm_num
  refine ⟨hB, hM, ?_⟩
  intro h
  rw [h, hM] at hB
  simp only [Option.some.injEq, Particle.mk.injEq] at hB
  norm_num at hB

/-- C7, amended: on snapshots of length `N ≥ 1`, a particles frame on a pool that is empty or
holds 100 particles, then `k ≥ 1` frames in the bars mode.  The pool seen by the next particles
frame holds 100 particles and is exactly the pool the first particles frame left (positions
and velocities included: the bars frames do not advance it), no further call of
`Math.random()` was made, and the next particles frame advances each particle once from
there. -/
theorem pool_kept_across_bars (host : Host) (canvas : Canvas) (N : Nat) (d0 : List Nat)
    (ds : List (List Nat)) (sc : Scene) (_hN : 1 ≤ N) (_h0 : d0.length = N)
    (_hds : ∀ d ∈ ds, d.length = N) (_hk : 1 ≤ ds.length)
    (hsc : sc.particles.length = 0 ∨ sc.particles.length = 100) :
    (ds.foldl (fun t d => renderFrame host VisualMode.bars canvas d t)
      (renderFrame host VisualMode.particles canvas d0 sc)).particles =
      (renderFrame host VisualMode.particles canvas d0 sc).particles ∧
    (ds.foldl (fun t d => renderFrame host VisualMode.bars canvas d t)
      (renderFrame host VisualMode.particles canvas d0 sc)).particles.length = 100 ∧
    (ds.foldl (fun t d => renderFrame host VisualMode.bars canvas d t)
      (renderFrame host VisualMode.particles canvas d0 sc)).randomCalls =
      (renderFrame host VisualMode.particles canvas d0 sc).randomCalls ∧
    ∀ d1 : List Nat, d1.length = N →
      (renderFrame host VisualMode.particles canvas d1
        (ds.foldl (fun t d => renderFrame host VisualMode.bars canvas d t)
          (renderFrame host VisualMode.particles canvas d0 sc))).particles =
        (renderFrame host VisualMode.particles canvas d0 sc).particles.map
          (moveParticle canvas (intensityOf d1)) ∧
      (renderFrame host VisualMode.particles canvas d1
        (ds.foldl (fun t d => renderFrame host VisualMode.bars canvas d t)
          (renderFrame host VisualMode.particles canvas d0 sc))).randomCalls =
        (renderFrame host VisualMode.particles canvas d0 sc).randomCalls := by
  obtain ⟨hb1, hb2⟩ := bars_frames_keep_pool host canvas ds
    (renderFrame host VisualMode.particles canvas d0 sc)
  have hlen : (renderFrame host VisualMode.particles canvas d0 sc).particles.length = 100 := by
    rw [(renderFrame_particles_mode host canvas d0 sc).1]
    rcases hsc with h | h
    · have := ensurePool_of_nil host canvas sc (List.length_eq_zero.1 h)
      rw [this]
      simp
    · rw [ensurePool_of_ne_nil host canvas sc (by intro h0; rw [h0] at h; simp at h)]
      simpa using h
  refine ⟨hb1, by rw [hb1]; exact hlen, hb2, ?_⟩
  intro d1 _
  obtain ⟨hp1, hp2⟩ := renderFrame_particles_mode host canvas d1
    (ds.foldl (fun t d => renderFrame host VisualMode.bars canvas d t)
      (renderFrame host VisualMode.particles canvas d0 sc))
  have hne : (ds.foldl (fun t d => renderFrame host VisualMode.bars canvas d t)
      (renderFrame host VisualMode.particles canvas d0 sc)).particles ≠ [] := by
    rw [hb1]
    intro h0
    rw [h0] at hlen
    simp at hlen
  rw [hp1, hp2, ensurePool_of_ne_nil host canvas _ hne, hb1, hb2]
  exact ⟨rfl, rfl⟩

/-- C7, amended, at three frames in the bars mode on a 1200 by 600 surface. -/
theorem pool_kept_across_bars_witness :
    (List.foldl (fun t d => renderFrame Host.sample VisualMode.bars ⟨1200, 600⟩ d t)
      (renderFrame Host.sample VisualMode.particles ⟨1200, 600⟩ [3, 4] Scene.fresh)
      [[1, 2], [5, 6], [7, 8]]).particles =
      (renderFrame Host.sample VisualMode.particles ⟨1200, 600⟩ [3, 4] Scene.fresh).particles :=
  (pool_kept_across_bars Host.sample ⟨1200, 600⟩ 2 [3, 4] [[1, 2], [5, 6], [7, 8]] Scene.fresh
    (by norm_num) rfl
    (by
      intro d hd
      simp only [List.mem_cons, List.mem_singleton, List.not_mem_nil, or_false] at hd
      rcases hd with rfl | rfl | rfl <;> rfl)
    (by simp) (Or.inl rfl)).1

end MusicVisualizer
